import Mathlib

/-!
Verification of the jax2onnx lowering core against its specification.

The development shallowly embeds the relevant parts of
`jax2onnx/converter/utils.py`, `jax2onnx/converter/conversion_api.py` and
`jax2onnx/plugins/jax/lax/pow.py`.  Parts of the repository that the claims
depend on but whose sources are absent (the `OnnxBuilder` methods, the
converter's variable-name map, the external tracing engine) are modelled
from the specification; each such definition carries a doc comment saying
so.

Conventions of the embedding:
* tensor element dtypes are represented by their ONNX `TensorProto` integer
  codes (`Nat`); `numpy_dtype_to_tensorproto` is the identity on codes that
  are already integers (source lines 44-45), so avals carry codes directly;
* shapes are lists of concrete dimensions (`List Nat`); symbolic dimensions
  play no role in the claims under verification;
* Python dicts that preserve insertion order are modelled as association
  lists (`List (String × _)`) looked up with `List.lookup`;
* the Python `print` diagnostics are not modelled, except for the two
  `[WARN]` messages of the nested-function output loop, which are collected
  in an explicit warning list because claims C2 and C7 mention them.
-/

/-- One target-IR node (`onnx.NodeProto`): operation type, node name and the
ordered input/output tensor-name lists. -/
structure Node where
  op_type : String
  name : String
  input : List String
  output : List String
deriving DecidableEq

/-- A frozen `ReusableFunction` as registered by `add_function`: the
sub-graph's node list, the declared parameter (captured-constant) inputs and
the declared output names. -/
structure FunctionBody where
  nodes : List Node
  param_inputs : List String
  outputs : List String
deriving DecidableEq

/-- An abstract value of a source-IR variable: shape and element dtype
(dtype as a `TensorProto` code, see the conventions above). -/
structure Aval where
  shape : List Nat
  dtype : Nat

/-- A source-IR variable (`jax.extend.core.Var`): an identity plus an
optional abstract value (`hasattr(var, "aval")` is modelled by the option). -/
structure SrcVar where
  id : Nat
  aval : Option Aval

/-- An equation input operand: a variable or an inline literal. -/
inductive Operand where
  | v (sv : SrcVar)
  | l (val : Nat)

/-- A nested-call equation: ordered input operands and output variables. -/
structure Eqn where
  invars : List Operand
  outvars : List SrcVar

/-- A materialized example argument used to drive the tracing engine:
either a constant-filled tensor of a given shape/dtype or a literal passed
through unchanged. -/
inductive ExampleArg where
  | tensor (shape : List Nat) (dtype : Nat) (fill : Nat)
  | lit (val : Nat)

/-- Value-info metadata carried per tensor name: shape, dtype and the
optional provenance tag (`None` when registered without an origin). -/
abbrev VInfo := List Nat × Nat × Option String

/-- The state of one `OnnxBuilder`: the shared name-generator counter, the
node list, the constant-table names (field `inits` models the builder's
initializer list), the registered reusable functions, the declared graph
outputs, the list of names that received a `ValueInfoProto`
(`value_info`), and the value-info metadata table with origins (`vim`
models `value_info_metadata` / `value_info_metadata_with_origin`, which the
source keeps in sync). -/
structure OnnxBuilder where
  name_counter : Nat
  nodes : List Node
  inits : List String
  functions : List (String × FunctionBody)
  outputs : List String
  value_info : List String
  vim : List (String × VInfo)
deriving DecidableEq

/-- Modelled from the spec: the converter's live mapping from source-IR
variable identity to target-IR tensor name (`get_name` / `get_var_name`);
the source class `Jaxpr2OnnxConverter` is not under `src/`. -/
structure Converter where
  getName : Nat → String

/-- Modelled from the spec: the outcome of re-invoking the external tracing
engine plus the recursive lowering of the callable's body into a fresh
sub-builder (`sub_converter.trace_jaxpr`), which is an external
collaborator.  `counter_after` is the shared name-generator state after the
nested lowering, `new_inits` the constants appended to the shared
initializer list during it, `subVarName` the sub-converter's variable-name
map, and `functions` the further-nested reusable functions discovered one
level down. -/
structure TraceResult where
  nodes : List Node
  outputs : List String
  vim : List (String × VInfo)
  new_inits : List String
  subVarName : Nat → String
  counter_after : Nat
  functions : List (String × FunctionBody)

/-- The finalized target-IR model produced by `create_onnx_model`. -/
structure OnnxModel where
  model_name : String
  nodes : List Node
  inits : List String
  functions : List (String × FunctionBody)

/- ### Sorted insertion (Python `sorted` on a set of names) -/

/-- Insert a string into a list so that a sorted list stays sorted. -/
def insort (a : String) : List String → List String
  | [] => [a]
  | b :: bs => if a ≤ b then a :: b :: bs else b :: insort a bs

/-- Insertion sort on strings; models Python's `sorted` applied to the
deduplicated list of captured-constant names. -/
def sortStrings (l : List String) : List String := l.foldr insort []

theorem mem_insort {b a : String} {l : List String} :
    b ∈ insort a l ↔ b = a ∨ b ∈ l := by
  induction l with
  | nil => simp [insort]
  | cons c cs ih =>
    by_cases h : a ≤ c
    · simp [insort, h]
    · simp only [insort, if_neg h, List.mem_cons, ih]
      tauto

theorem sorted_insort {a : String} {l : List String}
    (h : List.Sorted (fun x y => x ≤ y) l) :
    List.Sorted (fun x y => x ≤ y) (insort a l) := by
  induction l with
  | nil => simp [insort]
  | cons c cs ih =>
    rcases List.sorted_cons.mp h with ⟨hc, hcs⟩
    by_cases hac : a ≤ c
    · rw [insort, if_pos hac]
      refine List.sorted_cons.mpr ⟨?_, h⟩
      intro b hb
      rcases List.mem_cons.mp hb with rfl | hb
      · exact hac
      · exact le_trans hac (hc b hb)
    · rw [insort, if_neg hac]
      refine List.sorted_cons.mpr ⟨?_, ih hcs⟩
      intro b hb
      rcases mem_insort.mp hb with rfl | hb
      · exact le_of_not_le hac
      · exact hc b hb

theorem nodup_insort {a : String} {l : List String}
    (ha : a ∉ l) (h : l.Nodup) : (insort a l).Nodup := by
  induction l with
  | nil => simp [insort]
  | cons c cs ih =>
    rcases List.nodup_cons.mp h with ⟨hc, hcs⟩
    by_cases hac : a ≤ c
    · rw [insort, if_pos hac]
      exact List.nodup_cons.mpr ⟨by simpa using ha, h⟩
    · rw [insort, if_neg hac]
      refine List.nodup_cons.mpr ⟨?_, ih (fun hm => ha (List.mem_cons_of_mem _ hm)) hcs⟩
      intro hm
      rcases mem_insort.mp hm with rfl | hm
      · exact ha (List.mem_cons_self _ _)
      · exact hc hm

theorem mem_sortStrings {a : String} {l : List String} :
    a ∈ sortStrings l ↔ a ∈ l := by
  induction l with
  | nil => simp [sortStrings]
  | cons c cs ih =>
    show a ∈ insort c (sortStrings cs) ↔ _
    rw [mem_insort, ih, List.mem_cons]

theorem sorted_sortStrings (l : List String) :
    List.Sorted (fun x y => x ≤ y) (sortStrings l) := by
  induction l with
  | nil => simp [sortStrings]
  | cons c cs ih => exact sorted_insort ih

theorem nodup_sortStrings {l : List String} (h : l.Nodup) :
    (sortStrings l).Nodup := by
  induction l with
  | nil => simp [sortStrings]
  | cons c cs ih =>
    rcases List.nodup_cons.mp h with ⟨hc, hcs⟩
    exact nodup_insort (fun hm => hc (mem_sortStrings.mp hm)) (ih hcs)

/- ### dtype conversion tables (`utils.py` lines 20-60) -/

/-- The NumPy dtypes appearing in the conversion tables of `utils.py`. -/
inductive NpDtype where
  | float32
  | float64
  | int32
  | int64
  | bool_
  | int8
  | uint8
deriving DecidableEq

/-- `tensorproto_dtype_to_numpy` (source lines 20-39): maps an ONNX
`TensorProto` dtype code to a NumPy dtype via the seven-entry table; an
unknown code yields `np.float32` together with a printed warning, modelled
as the second component of the result. The codes are the `TensorProto`
enum values: FLOAT=1, UINT8=2, INT8=3, INT32=6, INT64=7, BOOL=9,
DOUBLE=11. -/
def tensorproto_dtype_to_numpy (onnx_dtype : Nat) : NpDtype × Bool :=
  if onnx_dtype = 1 then (.float32, false)
  else if onnx_dtype = 11 then (.float64, false)
  else if onnx_dtype = 6 then (.int32, false)
  else if onnx_dtype = 7 then (.int64, false)
  else if onnx_dtype = 9 then (.bool_, false)
  else if onnx_dtype = 3 then (.int8, false)
  else if onnx_dtype = 2 then (.uint8, false)
  else (.float32, true)

/-- `numpy_dtype_to_tensorproto` (source lines 42-60) restricted to NumPy
dtype arguments: the seven-entry table with default `TensorProto.FLOAT`.
(The source's `isinstance(dtype, int)` passthrough branch is modelled
separately by representing already-converted dtypes as bare codes, and the
`np.dtype(...)` failure fallback is unreachable from these inputs.) -/
def numpy_dtype_to_tensorproto : NpDtype → Nat
  | .float32 => 1
  | .float64 => 11
  | .int32 => 6
  | .int64 => 7
  | .bool_ => 9
  | .int8 => 3
  | .uint8 => 2

/- ### Builder operations (the `OnnxBuilder` class is not under `src/`;
these are modelled from the specification, section 4.1) -/

/-- Replace the binding of `n` in an association list, appending it when
absent. -/
def alist_set {α : Type} : List (String × α) → String → α → List (String × α)
  | [], n, v => [(n, v)]
  | (k, w) :: rest, n, v =>
    if k = n then (n, v) :: rest else (k, w) :: alist_set rest n v

/-- Modelled from the spec: `get_unique_instance_name(base)` derives a
fresh instance name from the base name plus the name generator's
disambiguating counter, advancing the shared counter so the name is never
reissued. -/
def get_unique_instance_name (b : OnnxBuilder) (base : String) :
    String × OnnxBuilder :=
  (base ++ "_" ++ Nat.repr b.name_counter,
   { b with name_counter := b.name_counter + 1 })

/-- Modelled from the spec: `register_value_info_metadata(name, shape,
dtype, origin)` inserts or updates the value-info record for `name`;
records whose provenance is `original` or `repaired` are never downgraded,
while other records are overwritten by a later registration. -/
def register_value_info_metadata (b : OnnxBuilder) (n : String)
    (shape : List Nat) (dtype : Nat) (origin : Option String) : OnnxBuilder :=
  match b.vim.lookup n with
  | some (_, _, o) =>
      if o = some "original" ∨ o = some "repaired" then b
      else { b with vim := alist_set b.vim n (shape, dtype, origin) }
  | none => { b with vim := b.vim ++ [(n, (shape, dtype, origin))] }

/-- Modelled from the spec: `add_value_info(name, shape, dtype)` records a
`ValueInfoProto` for `name` on the builder (only the name matters to the
claims; shape and dtype live in the metadata table). -/
def add_value_info (b : OnnxBuilder) (n : String) : OnnxBuilder :=
  { b with value_info := b.value_info ++ [n] }

/-- Modelled from the spec: `add_function(name, sub_builder,
param_input_names)` freezes a `ReusableFunction` from the sub-builder and
registers it once per name, returning the canonical internal identity.
(Its precondition - every sub-builder output carries a value-info record -
is established by `function_handler`'s explicit validation, modelled
below where the source performs it.) -/
def add_function (b : OnnxBuilder) (name : String) (sub : OnnxBuilder)
    (params : List String) : String × OnnxBuilder :=
  if (b.functions.lookup name).isSome then (name, b)
  else
    (name,
     { b with functions := b.functions ++
         [(name, { nodes := sub.nodes, param_inputs := params,
                   outputs := sub.outputs })] })

/-- Modelled from the spec: `merge_value_info_metadata_from(sub)` copies
the sub-builder's value-info metadata table into the parent via
`register_value_info_metadata`, keeping each entry's provenance. -/
def merge_value_info_metadata_from (parent sub : OnnxBuilder) : OnnxBuilder :=
  sub.vim.foldl
    (fun p e => register_value_info_metadata p e.1 e.2.1 e.2.2.1 e.2.2.2)
    parent

/-- Modelled from the spec: `add_function_call_node(...)` appends a node
whose operation type names the registered `ReusableFunction`, with the
given call inputs and outputs. -/
def add_function_call_node (b : OnnxBuilder) (fname : String)
    (ins outs : List String) (node_name : String) : OnnxBuilder :=
  { b with nodes := b.nodes ++
      [{ op_type := fname, name := node_name, input := ins, output := outs }] }

/- ### `_propagate_nested_functions` (`utils.py` lines 63-71) -/

/-- `_propagate_nested_functions(parent_builder, sub_builder)`: copy each
nested function of the sub-builder to the parent unless a function of that
name is already present. -/
def _propagate_nested_functions (parent sub : OnnxBuilder) : OnnxBuilder :=
  { parent with
      functions := sub.functions.foldl
        (fun fs p => if (fs.lookup p.1).isSome then fs else fs ++ [p])
        parent.functions }

/- ### `function_handler` (`utils.py` lines 74-255) -/

/-- Accumulator run of `lastComponent`: collect the characters seen since
the most recent dot (in reverse), resetting at each dot. -/
def lastComponentChars : List Char → List Char → List Char
  | cur, [] => cur.reverse
  | cur, c :: rest =>
    if c = '.' then lastComponentChars [] rest
    else lastComponentChars (c :: cur) rest

/-- `name.split(".")[-1]` - the substring after the last dot (the whole
string when it has no dot). -/
def lastComponent (s : String) : String := ⟨lastComponentChars [] s.data⟩

/-- All node input names of a node list, concatenated in order. -/
def nodeInputs : List Node → List String
  | [] => []
  | n :: rest => n.input ++ nodeInputs rest

/-- The input-preparation loop of `function_handler` (source lines 93-113):
for each `Var` operand record its parent-side tensor name, materialize an
example argument (a ones-filled tensor of the declared shape/dtype, or a
zero-filled scalar for rank zero) and register the variable's shape/dtype
metadata on the parent; `Literal` operands pass their value through as an
example argument only.  A variable without an abstract value makes the
loop raise (the source re-raises any exception after logging). -/
def prepare_inputs (conv : Converter) (b : OnnxBuilder) :
    List Operand → Except String (List String × List ExampleArg × OnnxBuilder)
  | [] => .ok ([], [], b)
  | .v sv :: rest =>
    match sv.aval with
    | none => .error "Failed to prepare inputs: input variable has no abstract value"
    | some a =>
      let n := conv.getName sv.id
      let ex : ExampleArg :=
        if a.shape = [] then .tensor [] a.dtype 0 else .tensor a.shape a.dtype 1
      let b := register_value_info_metadata b n a.shape a.dtype none
      match prepare_inputs conv b rest with
      | .error e => .error e
      | .ok (ns, exs, b') => .ok (n :: ns, ex :: exs, b')
  | .l v :: rest =>
    match prepare_inputs conv b rest with
    | .error e => .error e
    | .ok (ns, exs, b') => .ok (ns, .lit v :: exs, b')

/-- The sub-builder as it stands after the nested lowering (source lines
118-125): a fresh builder sharing the parent's initializer list (which the
trace may have extended) and the shared name generator, populated with the
traced nodes, outputs, metadata and nested functions. -/
def traced_sub (inits0 : List String) (tr : TraceResult) : OnnxBuilder :=
  { name_counter := tr.counter_after, nodes := tr.nodes,
    inits := inits0 ++ tr.new_inits, functions := tr.functions,
    outputs := tr.outputs, value_info := [], vim := tr.vim }

/-- The captured-constant identification of `function_handler` (source
lines 127-135): the set of initializer names referenced as an input of any
node of the freshly built sub-graph, sorted lexicographically
(`param_inputs = sorted(used_constants)`). -/
def handler_params (sub : OnnxBuilder) : List String :=
  sortStrings (((nodeInputs sub.nodes).filter
    (fun i => decide (i ∈ sub.inits))).dedup)

/-- The output-metadata validation of `function_handler` (source lines
139-145): raise as soon as a declared sub-graph output has no value-info
record.  (The source message, ASCII-adapted, names the output and the
function.) -/
def validate_outputs (outs : List String) (sub : OnnxBuilder)
    (fname : String) : Except String Unit :=
  match outs with
  | [] => .ok ()
  | n :: rest =>
    if (sub.vim.lookup n).isSome then validate_outputs rest sub fname
    else .error ("Subgraph output " ++ n ++
      " is missing shape/type metadata. Cannot register function " ++
      fname ++ ".")

/-- One iteration of the output-reconciliation loop of `function_handler`
(source lines 155-239) for output variable `var` at position `i`:
repair missing sub-graph metadata from the variable's abstract value
(provenance `repaired`) or fall back to the positionally corresponding
declared output name (warning when it differs from the expected name);
skip outputs the parent already has a `ValueInfoProto` for; otherwise look
up shape/dtype in the sub-graph table first and the parent table second,
recover it from the abstract value (provenance `recovered`) when both
lookups fail - raising when the variable has no abstract value either -
and finally register the result on the parent and add its
`ValueInfoProto`.  Returns the updated parent and sub builders and the
accumulated warnings. -/
def outvar_step (conv : Converter) (svn : Nat → String) (outs : List String)
    (i : Nat) (parent sub : OnnxBuilder) (var : SrcVar) (warns : List String) :
    Except String (OnnxBuilder × OnnxBuilder × List String) :=
  let parent_name := conv.getName var.id
  let sub_name0 := svn var.id
  let repaired :
      OnnxBuilder × String × List String :=
    if (sub.vim.lookup sub_name0).isSome then (sub, sub_name0, warns)
    else
      match var.aval with
      | some a =>
        (register_value_info_metadata sub sub_name0 a.shape a.dtype
          (some "repaired"), sub_name0, warns)
      | none =>
        match outs.get? i with
        | some fb =>
          (sub, fb,
           if fb ≠ sub_name0
           then warns ++ ["Output name mismatch: expected " ++ sub_name0 ++
             ", fallback used: " ++ fb]
           else warns)
        | none => (sub, sub_name0, warns)
  let sub := repaired.1
  let sub_name := repaired.2.1
  let warns := repaired.2.2
  if parent_name ∈ parent.value_info then .ok (parent, sub, warns)
  else
    let shape_dtype : Option (List Nat × Nat) :=
      match sub.vim.lookup sub_name with
      | some (s, d, _) => some (s, d)
      | none =>
        match parent.vim.lookup parent_name with
        | some (s, d, _) => some (s, d)
        | none => none
    match shape_dtype with
    | none =>
      match var.aval with
      | some a =>
        let shape := a.shape
        let dtype := a.dtype
        let warns :=
          match sub.vim.lookup sub_name with
          | some (s, d, _) =>
            if (shape, dtype) ≠ (s, d)
            then warns ++ ["Metadata mismatch for output " ++ parent_name]
            else warns
          | none => warns
        let sub :=
          if (sub.vim.lookup sub_name).isSome then sub
          else register_value_info_metadata sub sub_name shape dtype
            (some "recovered")
        let parent := register_value_info_metadata parent parent_name shape
          dtype (some "recovered")
        .ok (add_value_info parent parent_name, sub, warns)
      | none =>
        .error ("Output " ++ parent_name ++
          " missing metadata and has no aval. Cannot infer shape/type.")
    | some (shape, dtype) =>
      let origin : Option String :=
        match sub.vim.lookup sub_name with
        | some (_, _, o) => o
        | none =>
          match parent.vim.lookup parent_name with
          | some (_, _, o) => o
          | none => none
      let parent := register_value_info_metadata parent parent_name shape
        dtype (some (origin.getD "subgraph"))
      .ok (add_value_info parent parent_name, sub, warns)

/-- The output-reconciliation loop of `function_handler` over
`enumerate(eqn.outvars)`. -/
def outvar_loop (conv : Converter) (svn : Nat → String) (outs : List String) :
    List SrcVar → Nat → OnnxBuilder → OnnxBuilder → List String →
    Except String (OnnxBuilder × OnnxBuilder × List String)
  | [], _, parent, sub, warns => .ok (parent, sub, warns)
  | var :: rest, i, parent, sub, warns =>
    match outvar_step conv svn outs i parent sub var warns with
    | .error e => .error e
    | .ok (parent', sub', warns') =>
      outvar_loop conv svn outs rest (i + 1) parent' sub' warns'

/-- `function_handler(name, converter, eqn, orig_fn, params)` (source lines
74-255): raise when no original callable was recorded; derive the unique
instance name for this call site; prepare the parent-side input names,
example arguments and input metadata; re-trace the callable's body into a
sub-builder sharing the parent's initializer namespace and name generator
(the external engine is the parameter `tf`); identify the captured
constants; validate that every declared sub-graph output has metadata;
register the sub-graph as a reusable function on the parent; merge the
sub-graph metadata; reconcile each equation output into the parent; then
propagate further-nested functions and emit the single call node whose
inputs are the data inputs followed by the captured parameters. -/
def function_handler (callName : String) (conv : Converter) (eqn : Eqn)
    (origFn : Option String) (tf : List ExampleArg → Nat → TraceResult)
    (parent : OnnxBuilder) :
    Except String (OnnxBuilder × List String) :=
  match origFn with
  | none => .error ("Original function for " ++ callName ++ " not recorded.")
  | some _ =>
    let base := lastComponent callName
    let named := get_unique_instance_name parent base
    let unique_node_name := named.1
    match prepare_inputs conv named.2 eqn.invars with
    | .error e => .error e
    | .ok (input_names, example_args, parent2) =>
      let tr := tf example_args parent2.name_counter
      let sub := traced_sub parent2.inits tr
      let parent3 := { parent2 with inits := sub.inits,
                                    name_counter := tr.counter_after }
      let param_inputs := handler_params sub
      match validate_outputs sub.outputs sub unique_node_name with
      | .error e => .error e
      | .ok _ =>
        let parent4 := (add_function parent3 unique_node_name sub
          param_inputs).2
        let parent5 := merge_value_info_metadata_from parent4 sub
        match outvar_loop conv tr.subVarName sub.outputs eqn.outvars 0
            parent5 sub [] with
        | .error e => .error e
        | .ok (parent6, sub2, warns) =>
          let parent7 := _propagate_nested_functions parent6 sub2
          let call_inputs := input_names ++ param_inputs
          let output_names := eqn.outvars.map (fun v => conv.getName v.id)
          .ok (add_function_call_node parent7 unique_node_name call_inputs
            output_names unique_node_name, warns)

/- ### Specification-side views of `function_handler`'s intermediates -/

/-- The unique instance/function name `function_handler` derives for a call
site: the last dot-component of the callable's display name plus the
parent's current name-generator counter. -/
def fh_func_name (callName : String) (parent : OnnxBuilder) : String :=
  lastComponent callName ++ "_" ++ Nat.repr parent.name_counter

/-- The ordered data-input tensor names of a nested call: one name per
`Var` operand, in source-IR input order (`Literal` operands contribute no
name). -/
def data_input_names (conv : Converter) : List Operand → List String
  | [] => []
  | .v sv :: rest => conv.getName sv.id :: data_input_names conv rest
  | .l _ :: rest => data_input_names conv rest

/-- The example argument `function_handler` materializes for an operand:
a ones-filled tensor of the declared shape/dtype for a variable of
positive rank, a zero-filled scalar for a rank-zero variable, and the
literal value unchanged for a `Literal`.  (The value for a variable
without an abstract value is irrelevant: input preparation raises on
such a variable.) -/
def exampleOfD : Operand → ExampleArg
  | .v sv =>
    match sv.aval with
    | some a => if a.shape = [] then .tensor [] a.dtype 0
                else .tensor a.shape a.dtype 1
    | none => .lit 0
  | .l v => .lit v

/-- The trace result of a given nested lowering, expressed from the
handler's inputs: the engine applied to the materialized example arguments
at the name-generator state after the instance name was issued. -/
def fh_trace (eqn : Eqn) (tf : List ExampleArg → Nat → TraceResult)
    (parent : OnnxBuilder) : TraceResult :=
  tf (eqn.invars.map exampleOfD) (parent.name_counter + 1)

/-- The traced sub-builder of a given nested lowering, expressed from the
handler's inputs. -/
def fh_sub (eqn : Eqn) (tf : List ExampleArg → Nat → TraceResult)
    (parent : OnnxBuilder) : OnnxBuilder :=
  traced_sub parent.inits (fh_trace eqn tf parent)

/-- The captured-constant parameter list of a given nested lowering,
expressed from the handler's inputs. -/
def fh_param_inputs (eqn : Eqn) (tf : List ExampleArg → Nat → TraceResult)
    (parent : OnnxBuilder) : List String :=
  handler_params (fh_sub eqn tf parent)

/- ### `to_onnx` finalization (`conversion_api.py` lines 96-104) -/

/-- Modelled from the spec: `builder.filter_unused_initializers()` - the
explicit dead-constant elimination pass - removes every initializer that
no node of the graph references as an input (`OnnxBuilder` is not under
`src/`). -/
def filter_unused_inits (b : OnnxBuilder) : OnnxBuilder :=
  { b with
    inits := b.inits.filter (fun i => b.nodes.any (fun n => decide (i ∈ n.input))) }

/-- Modelled from the spec: `builder.create_onnx_model(model_name)`
packages the builder's accumulated state into the complete target-IR
model (`OnnxBuilder` is not under `src/`). -/
def create_onnx_model (b : OnnxBuilder) (model_name : String) : OnnxModel :=
  { model_name := model_name, nodes := b.nodes, inits := b.inits,
    functions := b.functions }

/-- Modelled from the spec: `improve_onnx_model` is the downstream
optimization collaborator, out of scope and treated as an opaque
equivalence-preserving rewrite; modelled as the identity. -/
def improve_onnx_model (m : OnnxModel) : OnnxModel := m

/-- The model-building tail of `to_onnx` (source lines 96-104): filter the
unused initializers, create the model, run the optimization pass.  The
builder is the state left by the top-level traversal, which the external
tracing engine drives and which is not itself at issue in the claims. -/
def to_onnx_finalize (b : OnnxBuilder) (model_name : String) : OnnxModel :=
  improve_onnx_model (create_onnx_model (filter_unused_inits b) model_name)

/- ### The `pow` plugin (`plugins/jax/lax/pow.py` lines 40-50) -/

/-- The state the `pow` handler touches: the converter's unique-name
counter (`s.get_unique_name`) and the node list (`s.add_node`). -/
structure PState where
  counter : Nat
  nodes : List Node

/-- `PowPlugin.to_onnx(s, node_inputs, node_outputs, params)`: read the
input names and the first output variable's name, make one `Pow` node with
those inputs and that single output under a fresh node name, and add it.
Indexing `node_outputs[0]` fails on an empty output list, modelled by
`Option`. -/
def pow_to_onnx (conv : Converter) (st : PState)
    (node_inputs node_outputs : List SrcVar) : Option PState :=
  match node_outputs with
  | [] => none
  | o :: _ =>
    let input_names := node_inputs.map (fun v => conv.getName v.id)
    let output_name := conv.getName o.id
    let node : Node := { op_type := "Pow",
                         name := "pow_" ++ Nat.repr st.counter,
                         input := input_names, output := [output_name] }
    some { counter := st.counter + 1, nodes := st.nodes ++ [node] }

/-- Decidable equality of `Except` results, used to evaluate the concrete
scenarios inside proofs. -/
instance {e a : Type} [DecidableEq e] [DecidableEq a] :
    DecidableEq (Except e a) := fun x y =>
  match x, y with
  | .error e1, .error e2 =>
    if h : e1 = e2 then isTrue (by rw [h])
    else isFalse (fun hc => by cases hc; exact h rfl)
  | .ok v1, .ok v2 =>
    if h : v1 = v2 then isTrue (by rw [h])
    else isFalse (fun hc => by cases hc; exact h rfl)
  | .error _, .ok _ => isFalse (fun hc => by cases hc)
  | .ok _, .error _ => isFalse (fun hc => by cases hc)

/- ### Concrete scenarios used by counterexamples and witnesses -/

/-- A rank-one `(3,)` float abstract value. -/
def w_aval1 : Aval := { shape := [3], dtype := 1 }

/-- The nested call's input variable. -/
def w_in : SrcVar := { id := 0, aval := some w_aval1 }

/-- The nested call's output variable. -/
def w_out : SrcVar := { id := 1, aval := some w_aval1 }

/-- A one-input one-output nested-call equation. -/
def w_eqn : Eqn := { invars := [Operand.v w_in], outvars := [w_out] }

/-- A parent-side variable-name map: variable `n` is tensor `t<n>`. -/
def w_conv : Converter := { getName := fun n => "t" ++ Nat.repr n }

/-- The single node of the traced sub-graph: it reads the sub-graph input
and the parent initializer `w`. -/
def w_node : Node :=
  { op_type := "Add", name := "n0", input := ["s_in", "w"],
    output := ["s_out"] }

/-- The function body the nested lowering freezes from the traced
sub-graph. -/
def w_body : FunctionBody :=
  { nodes := [w_node], param_inputs := ["w"], outputs := ["s_out"] }

/-- A deterministic external tracing engine: every lowering of the
callable produces the same sub-graph (one node, one declared output with
`subgraph`-provenance metadata, no new constants, no further-nested
functions) and allocates no names. -/
def w_tf : List ExampleArg → Nat → TraceResult := fun _ c =>
  { nodes := [w_node], outputs := ["s_out"],
    vim := [("s_out", ([3], 1, some "subgraph"))],
    new_inits := [], subVarName := fun n => if n = 1 then "s_out" else "s_x",
    counter_after := c, functions := [] }

/-- The parent builder at the first call site: fresh, with one initializer
`w`. -/
def w_parent : OnnxBuilder :=
  { name_counter := 0, nodes := [], inits := ["w"], functions := [],
    outputs := [], value_info := [], vim := [] }

/-- A tracing engine whose sub-graph output has no value-info record
(claim C2's missing-metadata situation). -/
def w2_tf : List ExampleArg → Nat → TraceResult := fun _ c =>
  { nodes := [w_node], outputs := ["s_out"], vim := [],
    new_inits := [], subVarName := fun n => if n = 1 then "s_out" else "s_x",
    counter_after := c, functions := [] }

/-- An output variable whose abstract value disagrees with the sub-graph's
recorded metadata for the corresponding output (claim C7's mismatch
situation): the abstract value says shape `(2, 2)` while the sub-graph
recorded `(3,)`. -/
def w7_out : SrcVar := { id := 1, aval := some { shape := [2, 2], dtype := 1 } }

/-- The nested-call equation of the C7 scenario. -/
def w7_eqn : Eqn := { invars := [Operand.v w_in], outvars := [w7_out] }

/- ### Association-list lookup helpers -/

theorem lookup_append_some {α : Type} {l1 l2 : List (String × α)} {k : String}
    {v : α} (h : l1.lookup k = some v) : (l1 ++ l2).lookup k = some v := by
  induction l1 with
  | nil => simp [List.lookup] at h
  | cons e rest ih =>
    obtain ⟨k1, v1⟩ := e
    rw [List.lookup] at h
    show List.lookup k ((k1, v1) :: (rest ++ l2)) = some v
    rw [List.lookup]
    cases hbeq : (k == k1) with
    | true => rw [hbeq] at h; simpa using h
    | false => rw [hbeq] at h; exact ih h

theorem lookup_append_none {α : Type} {l1 : List (String × α)} {k : String}
    (l2 : List (String × α)) (h : l1.lookup k = none) :
    (l1 ++ l2).lookup k = l2.lookup k := by
  induction l1 with
  | nil => simp
  | cons e rest ih =>
    obtain ⟨k1, v1⟩ := e
    rw [List.lookup] at h
    show List.lookup k ((k1, v1) :: (rest ++ l2)) = _
    rw [List.lookup]
    cases hbeq : (k == k1) with
    | true => rw [hbeq] at h; simp at h
    | false => rw [hbeq] at h; exact ih h

theorem lookup_append_none_left {α : Type} {l1 l2 : List (String × α)}
    {k : String} (h : (l1 ++ l2).lookup k = none) : l1.lookup k = none := by
  cases hl : l1.lookup k with
  | none => rfl
  | some v => rw [lookup_append_some hl] at h; cases h

/- ### Field-preservation lemmas for the builder operations -/

theorem register_preserves (b : OnnxBuilder) (n : String) (s : List Nat)
    (d : Nat) (o : Option String) :
    (register_value_info_metadata b n s d o).name_counter = b.name_counter ∧
    (register_value_info_metadata b n s d o).inits = b.inits ∧
    (register_value_info_metadata b n s d o).functions = b.functions ∧
    (register_value_info_metadata b n s d o).nodes = b.nodes ∧
    (register_value_info_metadata b n s d o).value_info = b.value_info := by
  unfold register_value_info_metadata
  split
  · split
    · exact ⟨rfl, rfl, rfl, rfl, rfl⟩
    · exact ⟨rfl, rfl, rfl, rfl, rfl⟩
  · exact ⟨rfl, rfl, rfl, rfl, rfl⟩

theorem merge_preserves_functions (p s : OnnxBuilder) :
    (merge_value_info_metadata_from p s).functions = p.functions := by
  unfold merge_value_info_metadata_from
  generalize s.vim = l
  induction l generalizing p with
  | nil => rfl
  | cons e rest ih =>
    rw [List.foldl_cons, ih]
    exact (register_preserves p e.1 e.2.1 e.2.2.1 e.2.2.2).2.2.1

theorem outvar_step_functions {conv : Converter} {svn : Nat → String}
    {outs : List String} {i : Nat} {parent sub : OnnxBuilder} {var : SrcVar}
    {warns : List String} {p' s' : OnnxBuilder} {w' : List String}
    (h : outvar_step conv svn outs i parent sub var warns = .ok (p', s', w')) :
    p'.functions = parent.functions := by
  simp only [outvar_step] at h
  split at h
  · obtain ⟨rfl, rfl, rfl⟩ := by simpa using h
    rfl
  · split at h
    · split at h
      · obtain ⟨rfl, rfl, rfl⟩ := by simpa using h
        exact (register_preserves _ _ _ _ _).2.2.1
      · cases h
    · obtain ⟨rfl, rfl, rfl⟩ := by simpa using h
      exact (register_preserves _ _ _ _ _).2.2.1

theorem outvar_loop_functions {conv : Converter} {svn : Nat → String}
    {outs : List String} :
    ∀ (vars : List SrcVar) (i : Nat) (parent sub : OnnxBuilder)
      (warns : List String) (p' s' : OnnxBuilder) (w' : List String),
    outvar_loop conv svn outs vars i parent sub warns = .ok (p', s', w') →
    p'.functions = parent.functions := by
  intro vars
  induction vars with
  | nil =>
    intro i parent sub warns p' s' w' h
    obtain ⟨rfl, rfl, rfl⟩ := by simpa [outvar_loop] using h
    rfl
  | cons var rest ih =>
    intro i parent sub warns p' s' w' h
    rw [outvar_loop] at h
    cases hstep : outvar_step conv svn outs i parent sub var warns with
    | error e => rw [hstep] at h; cases h
    | ok trip =>
      obtain ⟨p1, s1, w1⟩ := trip
      rw [hstep] at h
      exact (ih (i + 1) p1 s1 w1 p' s' w' h).trans (outvar_step_functions hstep)

theorem prepare_inputs_ok {conv : Converter} :
    ∀ (ops : List Operand) (b : OnnxBuilder) (ins : List String)
      (exs : List ExampleArg) (b' : OnnxBuilder),
    prepare_inputs conv b ops = .ok (ins, exs, b') →
    ins = data_input_names conv ops ∧ exs = ops.map exampleOfD ∧
    b'.name_counter = b.name_counter ∧ b'.inits = b.inits ∧
    b'.functions = b.functions := by
  intro ops
  induction ops with
  | nil =>
    intro b ins exs b' h
    obtain ⟨rfl, rfl, rfl⟩ := by simpa [prepare_inputs] using h
    exact ⟨rfl, rfl, rfl, rfl, rfl⟩
  | cons op rest ih =>
    intro b ins exs b' h
    match op with
    | .v sv =>
      rw [prepare_inputs] at h
      cases hav : sv.aval with
      | none => rw [hav] at h; cases h
      | some a =>
        rw [hav] at h
        dsimp only at h
        cases hp : prepare_inputs conv
            (register_value_info_metadata b (conv.getName sv.id) a.shape
              a.dtype none) rest with
        | error e => rw [hp] at h; cases h
        | ok trip =>
          obtain ⟨ns, exs0, b''⟩ := trip
          rw [hp] at h
          obtain ⟨rfl, rfl, rfl⟩ := by simpa using h
          obtain ⟨h1, h2, h3, h4, h5⟩ := ih _ ns exs0 b'' hp
          have hreg := register_preserves b (conv.getName sv.id) a.shape
            a.dtype none
          refine ⟨?_, ?_, ?_, ?_, ?_⟩
          · rw [h1]; rfl
          · rw [h2]; simp [exampleOfD, hav]
          · rw [h3, hreg.1]
          · rw [h4, hreg.2.1]
          · rw [h5, hreg.2.2.1]
    | .l v =>
      rw [prepare_inputs] at h
      cases hp : prepare_inputs conv b rest with
      | error e => rw [hp] at h; cases h
      | ok trip =>
        obtain ⟨ns, exs0, b''⟩ := trip
        rw [hp] at h
        obtain ⟨rfl, rfl, rfl⟩ := by simpa using h
        obtain ⟨h1, h2, h3, h4, h5⟩ := ih _ ns exs0 b'' hp
        exact ⟨by rw [h1]; rfl, by rw [h2]; rfl, h3, h4, h5⟩

theorem add_function_fresh {b : OnnxBuilder} {name : String}
    {sub : OnnxBuilder} {params : List String}
    (h : b.functions.lookup name = none) :
    (add_function b name sub params).2.functions = b.functions ++
      [(name, { nodes := sub.nodes, param_inputs := params,
                outputs := sub.outputs })] := by
  unfold add_function
  rw [h]
  rfl

/- ### Propagation-fold helpers -/

theorem propagate_fold (entries : List (String × FunctionBody)) :
    ∀ acc : List (String × FunctionBody),
    ∃ new,
      entries.foldl
        (fun fs p => if (fs.lookup p.1).isSome then fs else fs ++ [p]) acc =
        acc ++ new ∧
      ∀ p ∈ new, acc.lookup p.1 = none ∧ p ∈ entries := by
  induction entries with
  | nil => exact fun acc => ⟨[], by simp, by simp⟩
  | cons e rest ih =>
    intro acc
    by_cases he : (acc.lookup e.1).isSome = true
    · obtain ⟨new, hfold, hnew⟩ := ih acc
      refine ⟨new, ?_, fun p hp => ⟨(hnew p hp).1, List.mem_cons_of_mem _ (hnew p hp).2⟩⟩
      rw [List.foldl_cons, if_pos he, hfold]
    · obtain ⟨new, hfold, hnew⟩ := ih (acc ++ [e])
      refine ⟨e :: new, ?_, ?_⟩
      · rw [List.foldl_cons, if_neg he, hfold, List.append_assoc]
        rfl
      · intro p hp
        rcases List.mem_cons.mp hp with rfl | hp
        · exact ⟨Option.not_isSome_iff_eq_none.mp he, List.mem_cons_self _ _⟩
        · exact ⟨lookup_append_none_left (hnew p hp).1,
            List.mem_cons_of_mem _ (hnew p hp).2⟩

theorem propagate_decomp (parent sub : OnnxBuilder) :
    ∃ new,
      (_propagate_nested_functions parent sub).functions =
        parent.functions ++ new ∧
      ∀ p ∈ new, parent.functions.lookup p.1 = none ∧ p ∈ sub.functions :=
  propagate_fold sub.functions parent.functions

theorem propagate_lookup_some {parent sub : OnnxBuilder} {k : String}
    (h : (parent.functions.lookup k).isSome = true) :
    (_propagate_nested_functions parent sub).functions.lookup k =
      parent.functions.lookup k := by
  obtain ⟨new, hdec, _⟩ := propagate_decomp parent sub
  obtain ⟨v, hv⟩ := Option.isSome_iff_exists.mp h
  rw [hdec, lookup_append_some hv, hv]

/- ### Claim theorems -/

/-- C8: `_propagate_nested_functions` adds to the parent builder only those
sub-builder functions whose names are not already present, and leaves every
function binding already present on the parent unchanged (the parent's
bindings form an unchanged prefix and every name they bind still looks up
to its old body). -/
theorem propagate_nested_functions_dedup (parent sub : OnnxBuilder) :
    (∃ new,
      (_propagate_nested_functions parent sub).functions =
        parent.functions ++ new ∧
      ∀ p ∈ new, parent.functions.lookup p.1 = none ∧ p ∈ sub.functions) ∧
    (∀ k, (parent.functions.lookup k).isSome = true →
      (_propagate_nested_functions parent sub).functions.lookup k =
        parent.functions.lookup k) :=
  ⟨propagate_decomp parent sub, fun _ h => propagate_lookup_some h⟩

/-- Parent builder of the C8 witness: one registered function `f`. -/
def w8_parent : OnnxBuilder :=
  { name_counter := 0, nodes := [], inits := [], outputs := [],
    value_info := [], vim := [],
    functions := [("f", w_body)] }

/-- Sub builder of the C8 witness: a conflicting binding for `f` and a new
function `g`. -/
def w8_sub : OnnxBuilder :=
  { name_counter := 0, nodes := [], inits := [], outputs := [],
    value_info := [], vim := [],
    functions := [("f", { nodes := [], param_inputs := [], outputs := [] }),
                  ("g", w_body)] }

/-- Witness for C8: propagating over an existing binding for `f` leaves the
parent's binding of `f` untouched. -/
theorem propagate_nested_functions_dedup_witness :
    (_propagate_nested_functions w8_parent w8_sub).functions.lookup "f" =
      w8_parent.functions.lookup "f" :=
  (propagate_nested_functions_dedup w8_parent w8_sub).2 "f" (by decide)

/-- C10: for each of the seven ONNX dtype codes of the conversion table
(FLOAT=1, UINT8=2, INT8=3, INT32=6, INT64=7, BOOL=9, DOUBLE=11), composing
`tensorproto_dtype_to_numpy` with `numpy_dtype_to_tensorproto` is the
identity and no warning is emitted, while every code outside the table is
mapped to `np.float32` with a warning instead of raising. -/
theorem dtype_roundtrip_and_default :
    (∀ d, d ∈ [1, 2, 3, 6, 7, 9, 11] →
      numpy_dtype_to_tensorproto (tensorproto_dtype_to_numpy d).1 = d ∧
      (tensorproto_dtype_to_numpy d).2 = false) ∧
    (∀ d, d ∉ [1, 2, 3, 6, 7, 9, 11] →
      tensorproto_dtype_to_numpy d = (NpDtype.float32, true)) := by
  constructor
  · intro d hd
    fin_cases hd <;> exact ⟨rfl, rfl⟩
  · intro d hd
    simp only [List.mem_cons, List.not_mem_nil, or_false, not_or] at hd
    obtain ⟨h1, h2, h3, h6, h7, h9, h11⟩ := hd
    simp [tensorproto_dtype_to_numpy, h1, h2, h3, h6, h7, h9, h11]

/-- Witness for C10: the round trip is the identity at DOUBLE (code 11)
and an out-of-table code (5, UINT16) defaults to float32 with a warning. -/
theorem dtype_roundtrip_and_default_witness :
    numpy_dtype_to_tensorproto (tensorproto_dtype_to_numpy 11).1 = 11 ∧
    tensorproto_dtype_to_numpy 5 = (NpDtype.float32, true) :=
  ⟨(dtype_roundtrip_and_default.1 11 (by decide)).1,
   dtype_roundtrip_and_default.2 5 (by decide)⟩

/-- C9: for a `pow` equation with two tensor inputs of shape `(3,)`, the
registered handler emits exactly one `Pow` node whose inputs are the two
input tensor names in order and whose outputs are exactly the name bound
to the single output variable. -/
theorem pow_lowering_single_node (conv : Converter) (st : PState)
    (a b o : SrcVar) (st' : PState)
    (ha : a.aval.map Aval.shape = some [3])
    (hb : b.aval.map Aval.shape = some [3])
    (h : pow_to_onnx conv st [a, b] [o] = some st') :
    st'.nodes = st.nodes ++
      [{ op_type := "Pow", name := "pow_" ++ Nat.repr st.counter,
         input := [conv.getName a.id, conv.getName b.id],
         output := [conv.getName o.id] }] := by
  simp only [pow_to_onnx, List.map, Option.some.injEq] at h
  rw [← h]

/-- First input variable of the C9 witness. -/
def w9_a : SrcVar := { id := 10, aval := some w_aval1 }

/-- Second input variable of the C9 witness. -/
def w9_b : SrcVar := { id := 11, aval := some w_aval1 }

/-- Output variable of the C9 witness. -/
def w9_o : SrcVar := { id := 12, aval := some w_aval1 }

/-- Witness for C9: lowering `pow` on two concrete `(3,)` inputs emits the
single expected `Pow` node. -/
theorem pow_lowering_single_node_witness :
    ∃ st', pow_to_onnx w_conv { counter := 5, nodes := [] } [w9_a, w9_b]
        [w9_o] = some st' ∧
      st'.nodes = [] ++
        [{ op_type := "Pow", name := "pow_" ++ Nat.repr 5,
           input := [w_conv.getName w9_a.id, w_conv.getName w9_b.id],
           output := [w_conv.getName w9_o.id] }] :=
  ⟨_, rfl, pow_lowering_single_node w_conv { counter := 5, nodes := [] }
    w9_a w9_b w9_o _ rfl rfl rfl⟩

/-- C3: the model produced by the `to_onnx` finalization tail (explicit
dead-constant elimination, then model creation, then the opaque
optimization pass) contains no initializer that is not referenced as an
input by some node. -/
theorem to_onnx_no_dead_inits (b : OnnxBuilder) (mn : String) (i : String)
    (hi : i ∈ (to_onnx_finalize b mn).inits) :
    ∃ n ∈ (to_onnx_finalize b mn).nodes, i ∈ n.input := by
  simp only [to_onnx_finalize, improve_onnx_model, create_onnx_model,
    filter_unused_inits] at hi ⊢
  rw [List.mem_filter] at hi
  obtain ⟨_, hany⟩ := hi
  rw [List.any_eq_true] at hany
  obtain ⟨n, hn, hdec⟩ := hany
  exact ⟨n, hn, of_decide_eq_true hdec⟩

/-- Builder of the C3 witness: one node referencing `w`, and a dead
initializer. -/
def w3_builder : OnnxBuilder :=
  { name_counter := 0, nodes := [w_node], inits := ["w", "dead"],
    functions := [], outputs := [], value_info := [], vim := [] }

/-- Witness for C3: the kept initializer `w` is referenced by a node of the
finalized model (and the dead one was filtered out). -/
theorem to_onnx_no_dead_inits_witness :
    (to_onnx_finalize w3_builder "m").inits = ["w"] ∧
    ∃ n ∈ (to_onnx_finalize w3_builder "m").nodes, "w" ∈ n.input :=
  ⟨by decide, to_onnx_no_dead_inits w3_builder "m" "w" (by decide)⟩

/-- C6: the example arguments materialized by the input-preparation loop
are, per operand: a ones-filled tensor of the declared shape/dtype for a
variable of non-empty shape, a zero-filled scalar of the declared dtype
for a rank-zero variable, and the literal value passed through unchanged
for a `Literal`. -/
theorem prepare_inputs_materialization (conv : Converter) (b : OnnxBuilder)
    (ops : List Operand) (ins : List String) (exs : List ExampleArg)
    (b' : OnnxBuilder)
    (h : prepare_inputs conv b ops = .ok (ins, exs, b')) :
    exs = ops.map exampleOfD ∧
    (∀ sv a, sv.aval = some a → a.shape ≠ [] →
      exampleOfD (.v sv) = .tensor a.shape a.dtype 1) ∧
    (∀ sv a, sv.aval = some a → a.shape = [] →
      exampleOfD (.v sv) = .tensor [] a.dtype 0) ∧
    (∀ v, exampleOfD (.l v) = .lit v) := by
  refine ⟨(prepare_inputs_ok ops b ins exs b' h).2.1, ?_, ?_, fun v => rfl⟩
  · intro sv a hav hsh
    simp [exampleOfD, hav, hsh]
  · intro sv a hav hsh
    simp [exampleOfD, hav, hsh]

/-- Witness for C6: preparing the single `(3,)` input variable of the base
scenario materializes the ones-filled `(3,)` tensor. -/
theorem prepare_inputs_materialization_witness :
    ∃ ins exs b',
      prepare_inputs w_conv w_parent [Operand.v w_in] = .ok (ins, exs, b') ∧
      exs = [Operand.v w_in].map exampleOfD ∧
      exampleOfD (.v w_in) = .tensor [3] 1 1 := by
  obtain ⟨h1, h2, _, _⟩ :=
    prepare_inputs_materialization w_conv w_parent [Operand.v w_in] _ _ _ rfl
  exact ⟨_, _, _, rfl, h1, h2 w_in w_aval1 rfl (by decide)⟩
/-- C4: on success, the call node `function_handler` emits is the last node
of the resulting parent builder, its inputs are the data-input tensor names
in source-IR order followed by the captured-constant parameter names, and
its outputs are the names bound to the equation's output variables in
order. -/
theorem function_handler_call_node (cn f : String) (conv : Converter)
    (eqn : Eqn) (tf : List ExampleArg → Nat → TraceResult)
    (parent b : OnnxBuilder) (w : List String)
    (h : function_handler cn conv eqn (some f) tf parent = .ok (b, w)) :
    ∃ pre, b.nodes = pre ++
      [{ op_type := fh_func_name cn parent, name := fh_func_name cn parent,
         input := data_input_names conv eqn.invars ++
           fh_param_inputs eqn tf parent,
         output := eqn.outvars.map (fun v => conv.getName v.id) }] := by
  simp only [function_handler, get_unique_instance_name] at h
  split at h
  · cases h
  · rename_i ins exs p2 heq
    split at h
    · cases h
    · rename_i u heq2
      split at h
      · cases h
      · rename_i p6 sub2 warns heq3
        obtain ⟨hb, hw⟩ : add_function_call_node (_propagate_nested_functions p6 sub2) _ _ _ _ = b ∧ warns = w := by
          simpa using h
        obtain ⟨hins, hexs, hcnt, hinits, _⟩ :=
          prepare_inputs_ok eqn.invars _ ins exs p2 heq
        refine ⟨(_propagate_nested_functions p6 sub2).nodes, ?_⟩
        rw [← hb]
        show (_propagate_nested_functions p6 sub2).nodes ++ _ = _
        subst hins hexs
        rw [hcnt, hinits]
        simp only [fh_param_inputs, fh_sub, fh_trace, fh_func_name]

/-- Witness for C4: on the base scenario the emitted call node has inputs
`t0` (the data input) followed by `w` (the captured constant) and output
`t1`. -/
theorem function_handler_call_node_witness :
    ∃ b w pre,
      function_handler "mod.f" w_conv w_eqn (some "mod.f") w_tf w_parent =
        .ok (b, w) ∧
      b.nodes = pre ++
        [{ op_type := fh_func_name "mod.f" w_parent,
           name := fh_func_name "mod.f" w_parent,
           input := data_input_names w_conv w_eqn.invars ++
             fh_param_inputs w_eqn w_tf w_parent,
           output := w_eqn.outvars.map (fun v => w_conv.getName v.id) }] := by
  obtain ⟨pre, hpre⟩ := function_handler_call_node "mod.f" "mod.f" w_conv
    w_eqn w_tf w_parent _ _ rfl
  exact ⟨_, _, pre, rfl, hpre⟩

theorem mem_nodeInputs {a : String} {ns : List Node} :
    a ∈ nodeInputs ns ↔ ∃ n ∈ ns, a ∈ n.input := by
  induction ns with
  | nil => simp [nodeInputs]
  | cons n rest ih =>
    rw [nodeInputs, List.mem_append, ih]
    constructor
    · rintro (h | ⟨m, hm, hma⟩)
      · exact ⟨n, List.mem_cons_self _ _, h⟩
      · exact ⟨m, List.mem_cons_of_mem _ hm, hma⟩
    · rintro ⟨m, hm, hma⟩
      rcases List.mem_cons.mp hm with rfl | hm
      · exact Or.inl hma
      · exact Or.inr ⟨m, hm, hma⟩

theorem mem_handler_params {a : String} (sub : OnnxBuilder) :
    a ∈ handler_params sub ↔
      a ∈ sub.inits ∧ ∃ n ∈ sub.nodes, a ∈ n.input := by
  unfold handler_params
  rw [mem_sortStrings, List.mem_dedup, List.mem_filter, decide_eq_true_eq,
    mem_nodeInputs]
  tauto

/-- C5: on success (with the instance name fresh on the parent, as the name
generator guarantees), the registered function's declared parameter-input
list is exactly the lexicographically sorted, duplicate-free set of
initializer names referenced as an input by some node of the freshly built
sub-graph, and it is non-empty whenever the sub-graph references at least
one such constant. -/
theorem function_handler_registered_params (cn f : String) (conv : Converter)
    (eqn : Eqn) (tf : List ExampleArg → Nat → TraceResult)
    (parent b : OnnxBuilder) (w : List String)
    (h : function_handler cn conv eqn (some f) tf parent = .ok (b, w))
    (hfresh : parent.functions.lookup (fh_func_name cn parent) = none) :
    b.functions.lookup (fh_func_name cn parent) =
      some { nodes := (fh_trace eqn tf parent).nodes,
             param_inputs := fh_param_inputs eqn tf parent,
             outputs := (fh_trace eqn tf parent).outputs } ∧
    List.Sorted (fun x y => x ≤ y) (fh_param_inputs eqn tf parent) ∧
    (fh_param_inputs eqn tf parent).Nodup ∧
    (∀ a, a ∈ fh_param_inputs eqn tf parent ↔
      a ∈ (fh_sub eqn tf parent).inits ∧
      ∃ n ∈ (fh_trace eqn tf parent).nodes, a ∈ n.input) ∧
    ((∃ n ∈ (fh_trace eqn tf parent).nodes, ∃ a ∈ n.input,
        a ∈ (fh_sub eqn tf parent).inits) →
      fh_param_inputs eqn tf parent ≠ []) := by
  have hmem : ∀ a, a ∈ fh_param_inputs eqn tf parent ↔
      a ∈ (fh_sub eqn tf parent).inits ∧
      ∃ n ∈ (fh_trace eqn tf parent).nodes, a ∈ n.input :=
    fun a => mem_handler_params (fh_sub eqn tf parent)
  refine ⟨?_, sorted_sortStrings _, nodup_sortStrings (List.nodup_dedup _),
    hmem, ?_⟩
  · simp only [function_handler, get_unique_instance_name] at h
    split at h
    · cases h
    · rename_i ins exs p2 heq
      split at h
      · cases h
      · rename_i u heq2
        split at h
        · cases h
        · rename_i p6 sub2 warns heq3
          obtain ⟨hb, hw⟩ :
              add_function_call_node (_propagate_nested_functions p6 sub2)
                _ _ _ _ = b ∧ warns = w := by
            simpa using h
          obtain ⟨hins, hexs, hcnt, hinits, hfuns⟩ :=
            prepare_inputs_ok eqn.invars _ ins exs p2 heq
          rw [fh_func_name] at hfresh ⊢
          have hfr2 : ({ p2 with
              inits := (traced_sub p2.inits (tf exs p2.name_counter)).inits,
              name_counter :=
                (tf exs p2.name_counter).counter_after } :
              OnnxBuilder).functions.lookup
              (lastComponent cn ++ "_" ++ Nat.repr parent.name_counter) =
              none := by
            show p2.functions.lookup _ = none
            rw [hfuns]
            exact hfresh
          have hreg := @add_function_fresh _ _
            (traced_sub p2.inits (tf exs p2.name_counter))
            (handler_params (traced_sub p2.inits (tf exs p2.name_counter)))
            hfr2
          have h6 := outvar_loop_functions _ _ _ _ _ _ _ _ heq3
          rw [merge_preserves_functions, hreg] at h6
          have hp6 : p6.functions.lookup
              (lastComponent cn ++ "_" ++ Nat.repr parent.name_counter) =
              some { nodes := (traced_sub p2.inits
                       (tf exs p2.name_counter)).nodes,
                     param_inputs := handler_params
                       (traced_sub p2.inits (tf exs p2.name_counter)),
                     outputs := (traced_sub p2.inits
                       (tf exs p2.name_counter)).outputs } := by
            rw [h6]
            show (p2.functions ++ _).lookup _ = _
            rw [hfuns, lookup_append_none _ hfresh]
            simp [List.lookup]
          rw [← hb]
          show (_propagate_nested_functions p6 sub2).functions.lookup _ = _
          rw [propagate_lookup_some (by rw [hp6]; rfl), hp6]
          subst hexs
          rw [hcnt, hinits]
          simp only [fh_param_inputs, fh_sub, fh_trace]
          rfl
  · rintro ⟨n, hn, a, ha, hai⟩ hnil
    have hmm := (hmem a).mpr ⟨hai, n, hn, ha⟩
    rw [hnil] at hmm
    exact List.not_mem_nil a hmm

/-- Witness for C5: on the base scenario the registered function's
parameter-input list is exactly `["w"]` - the sorted set of referenced
initializer names - and is non-empty because the sub-graph's node
references the constant `w`. -/
theorem function_handler_registered_params_witness :
    ∃ b w,
      function_handler "mod.f" w_conv w_eqn (some "mod.f") w_tf w_parent =
        .ok (b, w) ∧
      b.functions.lookup (fh_func_name "mod.f" w_parent) =
        some { nodes := (fh_trace w_eqn w_tf w_parent).nodes,
               param_inputs := fh_param_inputs w_eqn w_tf w_parent,
               outputs := (fh_trace w_eqn w_tf w_parent).outputs } ∧
      fh_param_inputs w_eqn w_tf w_parent ≠ [] := by
  obtain ⟨h1, _, _, _, h5⟩ := function_handler_registered_params "mod.f"
    "mod.f" w_conv w_eqn w_tf w_parent _ _ rfl rfl
  exact ⟨_, _, rfl, h1, h5 (by decide)⟩

theorem validate_outputs_error {outs : List String} {sub : OnnxBuilder}
    {fname o : String} (ho : o ∈ outs) (hm : sub.vim.lookup o = none) :
    ∃ e, validate_outputs outs sub fname = .error e := by
  induction outs with
  | nil => cases ho
  | cons n rest ih =>
    rcases List.mem_cons.mp ho with rfl | ho'
    · rw [validate_outputs, hm]
      exact ⟨_, rfl⟩
    · by_cases hn : (sub.vim.lookup n).isSome = true
      · obtain ⟨e, he⟩ := ih ho'
        refine ⟨e, ?_⟩
        rw [validate_outputs, if_pos hn, he]
      · rw [validate_outputs, if_neg hn]
        exact ⟨_, rfl⟩

/-- C2 (amended): when a declared output of the freshly traced sub-graph
has no value-info record, `function_handler` raises at the validation step
- before `add_function` runs, so no function is ever registered with an
untyped output - and it does so without attempting any recovery, even when
the equation's output variables carry abstract values.  (The `repaired` and
positional-fallback recovery applies only later, to the mapping of the
equation's output variables to parent names.) -/
theorem missing_output_metadata_aborts (cn f : String) (conv : Converter)
    (eqn : Eqn) (tf : List ExampleArg → Nat → TraceResult)
    (parent : OnnxBuilder) (ins : List String) (exs : List ExampleArg)
    (p2 : OnnxBuilder)
    (hp : prepare_inputs conv
      { parent with name_counter := parent.name_counter + 1 } eqn.invars =
      .ok (ins, exs, p2))
    (o : String) (ho : o ∈ (fh_trace eqn tf parent).outputs)
    (hmiss : (fh_trace eqn tf parent).vim.lookup o = none) :
    ∃ e, function_handler cn conv eqn (some f) tf parent = .error e := by
  obtain ⟨hins, hexs, hcnt, hinits, hfuns⟩ :=
    prepare_inputs_ok eqn.invars _ ins exs p2 hp
  have htr : fh_trace eqn tf parent = tf exs p2.name_counter := by
    rw [fh_trace, hexs, hcnt]
  rw [htr] at ho hmiss
  obtain ⟨e, he⟩ := @validate_outputs_error
    (traced_sub p2.inits (tf exs p2.name_counter)).outputs
    (traced_sub p2.inits (tf exs p2.name_counter))
    (lastComponent cn ++ "_" ++ Nat.repr parent.name_counter) o ho hmiss
  refine ⟨e, ?_⟩
  simp only [function_handler, get_unique_instance_name]
  rw [hp]
  simp only [he]

/-- Witness for C2 (amended): on the scenario whose traced sub-graph
declares the output `s_out` without metadata, lowering raises. -/
theorem missing_output_metadata_aborts_witness :
    ∃ e, function_handler "mod.f" w_conv w_eqn (some "mod.f") w2_tf
      w_parent = .error e :=
  missing_output_metadata_aborts "mod.f" "mod.f" w_conv w_eqn w2_tf
    w_parent _ _ _ rfl "s_out" (by decide) (by decide)

/-- Counterexample for C2 as stated: the equation's output variable
carries an abstract value - so the claimed recovery (a) was available, and
per the claim lowering should have repaired the record and proceeded - yet
`function_handler` raises the validation error without attempting any
recovery. -/
theorem missing_output_metadata_counterexample :
    w_out.aval.isSome = true ∧
    function_handler "mod.f" w_conv w_eqn (some "mod.f") w2_tf w_parent =
      .error ("Subgraph output s_out is missing shape/type metadata. " ++
        "Cannot register function f_0.") :=
  ⟨rfl, by decide⟩

/-- Counterexample for C1 as stated: lowering the same nested callable
twice within one conversion, with identical abstract input signatures and
an identical traced body, registers TWO functions under TWO distinct
names (`f_0` and `f_1`, from the per-call-site instance counter), and the
two call nodes reference different names - not one shared name registered
exactly once. -/
theorem nested_call_lowering_two_names_counterexample :
    ∃ b1 w1 b2 w2,
      function_handler "mod.f" w_conv w_eqn (some "mod.f") w_tf w_parent =
        .ok (b1, w1) ∧
      function_handler "mod.f" w_conv w_eqn (some "mod.f") w_tf b1 =
        .ok (b2, w2) ∧
      b2.functions.map Prod.fst = ["f_0", "f_1"] ∧
      b2.nodes.map Node.op_type = ["f_0", "f_1"] ∧
      ("f_0" : String) ≠ "f_1" := by
  refine ⟨_, _, _, _, rfl, rfl, by decide, by decide, by decide⟩

/-- C1 (amended): within one top-level conversion, each lowering of the
same nested callable registers its own `ReusableFunction` under a fresh
instance name derived from the callable's base name plus the
disambiguating counter; with identical abstract input signatures the two
registered bodies are identical, but there is no shared-name deduplication
at registration - each call site's call node references the name of its
own lowering. -/
theorem nested_call_lowering_fresh_name_per_call_site :
    ∃ b1 w1 b2 w2,
      function_handler "mod.f" w_conv w_eqn (some "mod.f") w_tf w_parent =
        .ok (b1, w1) ∧
      function_handler "mod.f" w_conv w_eqn (some "mod.f") w_tf b1 =
        .ok (b2, w2) ∧
      fh_func_name "mod.f" w_parent = "f_0" ∧
      fh_func_name "mod.f" b1 = "f_1" ∧
      b2.functions = [("f_0", w_body), ("f_1", w_body)] ∧
      b2.nodes = [{ op_type := "f_0", name := "f_0",
                    input := ["t0", "w"], output := ["t1"] },
                  { op_type := "f_1", name := "f_1",
                    input := ["t0", "w"], output := ["t1"] }] := by
  refine ⟨_, _, _, _, rfl, rfl, by decide, by decide, by decide, by decide⟩

/-- C7 (code evaluated at the failing input): when the sub-graph records
shape `(3,)` for the output while the output variable's abstract value
says `(2, 2)`, `function_handler` succeeds with NO warning emitted and
registers the sub-graph's metadata on the parent with provenance
`subgraph` - the abstract value is never consulted, no mismatch is
surfaced, and nothing is registered with provenance `recovered`.  (The
mismatch-reporting branch of the source, lines 199-207, reads the
sub-graph table only after establishing that the same lookup was empty,
so it can never fire.) -/
theorem metadata_mismatch_silently_resolved :
    ∃ b,
      function_handler "mod.f" w_conv w7_eqn (some "mod.f") w_tf w_parent =
        .ok (b, []) ∧
      b.vim.lookup "t1" = some ([3], 1, some "subgraph") ∧
      w7_out.aval = some { shape := [2, 2], dtype := 1 } := by
  refine ⟨_, rfl, by decide, rfl⟩
